import Mathlib

/-!
Formal model of `convert_to_csv.py` (TDMS-to-CSV conversion pipeline).

The script converts TDMS capture files to CSV tables, optionally merges the
CSVs of one directory into a single table, and optionally renders per-channel
time-frequency images.  We model the tabular data (pandas DataFrames) as lists
of rows of optional numeric cells, the file-system and the TDMS decoder as
explicit environment functions, and the side effects of the transform stage as
an explicit effect list.  Python string operations used by the script
(`str.replace`, `str.lower`, `str.endswith`, `os.path.basename`) are modelled
on the character lists underlying Lean strings.
-/

namespace TdmsToCsv

/-! ## Definitions: the shallow embedding of `convert_to_csv.py` -/


/-- A cell of a tabular file: a numeric value, or a missing entry (NaN). -/
abbrev Cell := Option Int

/-- In-memory table, as produced by `pandas.read_csv` / `TdmsFile.as_dataframe`:
column names, row index, and rows of cells (each row aligned with `cols`). -/
structure DF where
  cols : List String
  idx : List Nat
  rows : List (List Cell)
  deriving DecidableEq, Repr

/-- Model of `pandas.DataFrame.empty`: true when any axis has length zero. -/
def DF.empty (df : DF) : Bool :=
  df.rows.isEmpty || df.cols.isEmpty

/-- The base-10 digit characters of `n`, most significant first. -/
def digitsRec (n : Nat) : List Char :=
  if _h : n < 10 then [Nat.digitChar n]
  else digitsRec (n / 10) ++ [Nat.digitChar (n % 10)]
decreasing_by exact Nat.div_lt_self (by omega) (by omega)

/-- Numeric value of a digit character. -/
def digitVal (c : Char) : Nat := c.toNat - 48

/-- The standardized column name `'CH' + str(i)`. -/
def chName (i : Nat) : String := "CH" ++ toString i

/-- The list `['CH0', ..., 'CH' + str(k-1)]`. -/
def chNames (k : Nat) : List String := (List.range k).map chName

/-- Value of column `c` in a row `row` aligned with column list `cols`
(pandas label-based lookup, as used when `pd.concat` reindexes each frame
to the union of the column labels). -/
def cellAt : List String → List Cell → String → Cell
  | [], _, _ => none
  | _ :: _, [], _ => none
  | c0 :: cs, v :: vs, c => if c0 = c then v else cellAt cs vs c

/-- One pass of Python `str.replace(pat, rep)` over a character list, with the
list length as fuel (each step consumes at least one character, so the fuel
suffices).  The script only calls `replace` with non-empty patterns. -/
def replaceAllAux (pat rep : List Char) : Nat → List Char → List Char
  | 0, s => s
  | _ + 1, [] => []
  | fuel + 1, c :: rest =>
    if pat.isPrefixOf (c :: rest) && !pat.isEmpty then
      rep ++ replaceAllAux pat rep fuel (List.drop pat.length (c :: rest))
    else
      c :: replaceAllAux pat rep fuel rest

/-- Python `s.replace(pat, rep)`: replace every (non-overlapping, left-to-right)
occurrence of `pat` in `s` by `rep`. -/
def pyReplace (s pat rep : String) : String :=
  (replaceAllAux pat.data rep.data s.data.length s.data).asString

/-- Python `s.lower()` (the file names in play are ASCII). -/
def pyLower (s : String) : String := (s.data.map Char.toLower).asString

/-- Python `os.path.basename`: the part of the path after the last slash. -/
def pyBasename (p : String) : String :=
  ((p.data.reverse.takeWhile (fun c => !(c == '/'))).reverse).asString

/-- Python `os.path.join(a, b)` for a relative second component. -/
def pathJoin (a b : String) : String := a ++ "/" ++ b

/-- Model of `sanitize_filename` (source lines 15-17): remove spaces from the name. -/
def sanitize_filename (filename : String) : String := pyReplace filename " " ""

/-- The acceptance test applied to candidate capture files
(`filename.lower().endswith('.tdms')`, source lines 162 and 207). -/
def lowerEndsWithTdms (filename : String) : Bool :=
  ".tdms".data.isSuffixOf (pyLower filename).data

/-- The written form of a table: a header row of column names and the data
rows.  `DataFrame.to_csv(path, index=False)` omits the synthetic index
column; with `index=True` pandas would prepend it. -/
structure CsvOut where
  header : List String
  body : List (List Cell)
  deriving DecidableEq, Repr

/-- Model of `DataFrame.to_csv`, keeping or dropping the index column. -/
def DF.to_csv (df : DF) (index : Bool) : CsvOut :=
  if index then
    { header := "" :: df.cols,
      body := (df.idx.zip df.rows).map (fun p => (some (Int.ofNat p.1) : Cell) :: p.2) }
  else
    { header := df.cols, body := df.rows }

/-- Model of `convert_tdms_to_csv(tdms_path, output_folder)`: derive the output name
from the sanitized base name by replacing `'.tdms'` with `'.csv'`, decode the
TDMS file (`decode` models `TdmsFile.read` + `as_dataframe`; a decode failure
raises), and write the table without the index column.  Returns the CSV path
and the written content. -/
def convert_tdms_to_csv (decode : String → Except String DF)
    (tdms_path output_folder : String) : Except String (String × CsvOut) :=
  let base_filename := sanitize_filename (pyBasename tdms_path)
  let csv_filename := pyReplace base_filename ".tdms" ".csv"
  let csv_path := pathJoin output_folder csv_filename
  match decode tdms_path with
  | Except.error e => Except.error e
  | Except.ok df => Except.ok (csv_path, df.to_csv false)

/-- Outcome of `pd.read_csv` on one input path: a parsed table, an
`EmptyDataError`, or some other exception. -/
inductive ReadResult where
  | ok (df : DF)
  | emptyData
  | err (msg : String)
  deriving DecidableEq, Repr

/-- The column renaming of source lines 43-45: every surviving table's columns
become `CH0 .. CH(k-1)` for its own column count `k`. -/
def standardizeColumns (df : DF) : DF :=
  { df with cols := chNames df.cols.length }

/-- The tables that survive the read loop of `merge_csv_files` (lines 33-53):
parseable and non-empty, with standardized column names. -/
def survivingDfs (read_csv : String → ReadResult) (files : List String) : List DF :=
  files.filterMap fun file =>
    match read_csv file with
    | ReadResult.ok df => if df.empty then none else some (standardizeColumns df)
    | ReadResult.emptyData => none
    | ReadResult.err _ => none

/-- The same tables before renaming (the non-empty parseable inputs, in input
order). -/
def contributingDfs (read_csv : String → ReadResult) (files : List String) : List DF :=
  files.filterMap fun file =>
    match read_csv file with
    | ReadResult.ok df => if df.empty then none else some df
    | ReadResult.emptyData => none
    | ReadResult.err _ => none

/-- The log lines printed by the read loop of `merge_csv_files`
(source lines 39, 48, 50, 52). -/
def mergeLogs (read_csv : String → ReadResult) : List String → List String
  | [] => []
  | file :: rest =>
    (match read_csv file with
     | ReadResult.ok df =>
       if df.empty then ["Skipping empty file: " ++ file]
       else ["Processed file: " ++ file ++ " | Columns = " ++
             toString df.cols.length ++ ", Rows = " ++ toString df.rows.length]
     | ReadResult.emptyData => ["No data in " ++ file ++ ", skipping."]
     | ReadResult.err e => ["Error reading " ++ file ++ ": " ++ e]) ++
    mergeLogs read_csv rest

/-- Column labels of `pd.concat` with the default outer join and
`sort=False`: the union of the frames' labels in order of first appearance. -/
def unionCols (dfs : List DF) : List String :=
  dfs.foldl (fun acc df => acc ++ df.cols.filter (fun c => decide (c ∉ acc))) []

/-- Model of `pd.concat(dataframes, ignore_index=True)`: reindex every row to the
union of the column labels (missing labels become NaN cells), append the
frames in order, and assign a fresh contiguous row index. -/
def concatIgnoreIndex (dfs : List DF) : DF :=
  let allCols := unionCols dfs
  let body := dfs.flatMap (fun df => df.rows.map (fun r => allCols.map (cellAt df.cols r)))
  { cols := allCols, idx := List.range body.length, rows := body }

/-- Model of `merge_csv_files(files, output_folder, timestamp)`: read each input,
skip empty and unreadable ones, rename the survivors' columns, concatenate,
and write `merge_csv_<timestamp>.csv`.  Returns the written path and content,
or `none` (Python `None`, nothing written) when no table survived. -/
def merge_csv_files (read_csv : String → ReadResult) (files : List String)
    (output_folder timestamp : String) : Option (String × DF) :=
  let dataframes := survivingDfs read_csv files
  if dataframes.isEmpty then none
  else
    some (pathJoin output_folder ("merge_csv_" ++ timestamp ++ ".csv"),
      concatIgnoreIndex dataframes)

/-- Observable side effects of the transform stage: a saved PNG artifact, or a
printed notice. -/
inductive Effect where
  | writePng (path : String)
  | info (msg : String)
  deriving DecidableEq, Repr

/-- Common shape of the five transform routines (source lines 69-138): read
the CSV, extract the channel column (`KeyError` if the name is absent — fatal
for the invocation, nothing caught), render, and save one PNG named by
substituting `'.csv'` with `'_<channel>_<tag>.png'`, then print a completion
notice. -/
def transformRoutine (read_csv : String → ReadResult)
    (csv_file channel tag doneMsg : String) : Except String (List Effect) :=
  match read_csv csv_file with
  | ReadResult.ok df =>
    if df.cols.contains channel then
      Except.ok
        [Effect.writePng (pyReplace csv_file ".csv" ("_" ++ channel ++ "_" ++ tag ++ ".png")),
         Effect.info doneMsg]
    else Except.error ("KeyError: " ++ channel)
  | ReadResult.emptyData => Except.error ("EmptyDataError: " ++ csv_file)
  | ReadResult.err e => Except.error e

/-- Model of `stft_transform` (lines 69-81). -/
def stft_transform (read_csv : String → ReadResult) (csv_file channel : String) :
    Except String (List Effect) :=
  transformRoutine read_csv csv_file channel "stft"
    ("STFT transformation completed for " ++ channel ++ ". Image saved.")

/-- Model of `cwt_transform` (lines 83-95). -/
def cwt_transform (read_csv : String → ReadResult) (csv_file channel : String) :
    Except String (List Effect) :=
  transformRoutine read_csv csv_file channel "cwt"
    ("CWT transformation completed for " ++ channel ++ ". Image saved.")

/-- Model of `mel_spectrogram_transform` (lines 98-111). -/
def mel_spectrogram_transform (read_csv : String → ReadResult) (csv_file channel : String) :
    Except String (List Effect) :=
  transformRoutine read_csv csv_file channel "mel_spectrogram"
    ("Mel Spectrogram transformation completed for " ++ channel ++ ". Image saved.")

/-- Model of `s_transform` (lines 113-124). -/
def s_transform (read_csv : String → ReadResult) (csv_file channel : String) :
    Except String (List Effect) :=
  transformRoutine read_csv csv_file channel "s_transform"
    ("S-Transform (simplified) completed for " ++ channel ++ ". Image saved.")

/-- Model of `wigner_ville_distribution` (lines 126-138). -/
def wigner_ville_distribution (read_csv : String → ReadResult) (csv_file channel : String) :
    Except String (List Effect) :=
  transformRoutine read_csv csv_file channel "wvd"
    ("Wigner-Ville Distribution transformation completed for " ++ channel ++ ". Image saved.")

/-- Model of `perform_transformation(merge_csv_path, channels, algorithm)`
(source lines 141-155): dispatch per channel, in list order, on the integer
algorithm selector; selectors other than 1-5 print a not-implemented notice
and produce nothing.  A routine failure aborts the remaining loop. -/
def perform_transformation (read_csv : String → ReadResult)
    (merge_csv_path : String) (channels : List String) (algorithm : Int) :
    Except String (List Effect) :=
  match channels with
  | [] => Except.ok []
  | channel :: rest =>
    let step :=
      if algorithm = 1 then mel_spectrogram_transform read_csv merge_csv_path channel
      else if algorithm = 2 then stft_transform read_csv merge_csv_path channel
      else if algorithm = 3 then cwt_transform read_csv merge_csv_path channel
      else if algorithm = 4 then wigner_ville_distribution read_csv merge_csv_path channel
      else if algorithm = 5 then s_transform read_csv merge_csv_path channel
      else Except.ok [Effect.info ("Algorithm " ++ toString algorithm ++
        " not implemented for " ++ channel ++ ".")]
    match step with
    | Except.error e => Except.error e
    | Except.ok es =>
      match perform_transformation read_csv merge_csv_path rest algorithm with
      | Except.error e => Except.error e
      | Except.ok more => Except.ok (es ++ more)

/-- The candidate files of one directory run: `sorted(os.listdir(folder))`
filtered by the case-insensitive `.tdms` suffix test (source lines 160-162).
Python's `sorted` is a stable ascending sort; we model it with insertion
sort. -/
def discovered_tdms (listing : List String) : List String :=
  (List.insertionSort (fun a b : String => a ≤ b) listing).filter
    (fun f => lowerEndsWithTdms f)

/-- The values of the submitted conversion futures, in submission order: the
CSV path on success, the raised exception otherwise. -/
def taskResults (decode : String → Except String DF)
    (folder_path output_folder : String) (listing : List String) :
    List (Except String String) :=
  (discovered_tdms listing).map fun filename =>
    (convert_tdms_to_csv decode (pathJoin folder_path filename) output_folder).map Prod.fst

/-- The result-collection loop of `process_folder` (source lines 164-169),
applied to the futures' outcomes in completion order.  `future.result()`
re-raises a task's exception, which aborts the loop; a successful, non-empty
path is appended. -/
def collectCsvFiles : List (Except String String) → Except String (List String)
  | [] => Except.ok []
  | Except.error e :: _ => Except.error e
  | Except.ok p :: rest =>
    match collectCsvFiles rest with
    | Except.error e => Except.error e
    | Except.ok ps => Except.ok (if p = "" then ps else p :: ps)

/-- The mtime re-sort of source line 173 (`sorted(csv_files, key=getmtime)`),
a stable ascending sort on the modification-time key. -/
def sortByMtime (mtime : String → Int) (files : List String) : List String :=
  List.insertionSort (fun a b => mtime a ≤ mtime b) files

/-- Python truthiness of an optional string (absent or empty is falsy). -/
def truthyStr : Option String → Bool
  | none => false
  | some s => !(s == "")

/-- Python truthiness of an optional list (absent or empty is falsy). -/
def truthyList : Option (List String) → Bool
  | none => false
  | some l => !l.isEmpty

/-- Python truthiness of an optional integer (absent or zero is falsy). -/
def truthyInt : Option Int → Bool
  | none => false
  | some n => !(n == 0)

/-- The per-file transform loop of source lines 180-181. -/
def performAll (read_csv : String → ReadResult) (paths : List String)
    (channels : List String) (algorithm : Int) : Except String (List Effect) :=
  match paths with
  | [] => Except.ok []
  | p :: rest =>
    match perform_transformation read_csv p channels algorithm with
    | Except.error e => Except.error e
    | Except.ok es =>
      match performAll read_csv rest channels algorithm with
      | Except.error e => Except.error e
      | Except.ok more => Except.ok (es ++ more)

/-- The transform stage of `process_folder` (source lines 176-181), guarded by
the truthiness of `transform`, `channels` and `algorithm`. -/
def transformStage (read_csv : String → ReadResult) (transform should_merge : Bool)
    (channels : Option (List String)) (algorithm : Option Int)
    (merged_csv_path : Option String) (csv_files : List String) :
    Except String (List Effect) :=
  if transform && truthyList channels && truthyInt algorithm then
    if should_merge && truthyStr merged_csv_path then
      perform_transformation read_csv (merged_csv_path.getD "") (channels.getD [])
        (algorithm.getD 0)
    else if !should_merge then
      performAll read_csv csv_files (channels.getD []) (algorithm.getD 0)
    else Except.ok []
  else Except.ok []

/-- Model of `process_folder` (source lines 157-181), with the completion-order list of
task outcomes passed explicitly (`as_completed` yields the submitted futures
in a non-deterministic order; theorems quantify over every permutation of the
submission-order results).  Returns the merge result (if any) and the
transform effects, or the first uncaught exception. -/
def process_folder (read_csv : String → ReadResult) (mtime : String → Int)
    (compl : List (Except String String)) (should_merge transform : Bool)
    (channels : Option (List String)) (algorithm : Option Int)
    (output_folder timestamp : String) :
    Except String (Option (String × DF) × List Effect) :=
  match collectCsvFiles compl with
  | Except.error e => Except.error e
  | Except.ok csv_files =>
    let merged :=
      if should_merge && !csv_files.isEmpty then
        merge_csv_files read_csv (sortByMtime mtime csv_files) output_folder timestamp
      else none
    match transformStage read_csv transform should_merge channels algorithm
        (merged.map Prod.fst) csv_files with
    | Except.error e => Except.error e
    | Except.ok effects => Except.ok (merged, effects)

/-- The single-file transform step of `main` (source lines 208-210). -/
def main_transform_step (read_csv : String → ReadResult) (csv_path : String)
    (transform : Bool) (channels : Option (List String)) (algorithm : Option Int) :
    Except String (List Effect) :=
  if transform && truthyList channels && truthyInt algorithm then
    perform_transformation read_csv csv_path (channels.getD []) (algorithm.getD 0)
  else Except.ok []

/-- Largest column count among a list of tables (0 when the list is empty). -/
def maxColumnCount (dfs : List DF) : Nat :=
  (dfs.map (fun df => df.cols.length)).foldl max 0

/-- A two-column, one-row table. -/
def dfTwoCols : DF := ⟨["a", "b"], [0], [[some 1, some 2]]⟩

/-- A three-column, one-row table. -/
def dfThreeCols : DF := ⟨["x", "y", "z"], [0], [[some 3, some 4, some 5]]⟩

/-- A table with a header but zero rows (`df.empty` is true). -/
def dfEmptyRows : DF := ⟨["x"], [], []⟩

/-- Reader producing a 2-column table for `f1` and a 3-column table otherwise. -/
def readCsvTwoWidths : String → ReadResult := fun f =>
  if f = "f1" then ReadResult.ok dfTwoCols else ReadResult.ok dfThreeCols

/-- Reader producing the same non-empty table for every path. -/
def readCsvSingle : String → ReadResult := fun _ => ReadResult.ok dfTwoCols

/-- Reader producing an empty table for `e` and a non-empty one otherwise. -/
def readCsvWithEmpty : String → ReadResult := fun f =>
  if f = "e" then ReadResult.ok dfEmptyRows else ReadResult.ok dfTwoCols

/-- Reader producing an empty table for every path. -/
def readCsvAllEmpty : String → ReadResult := fun _ => ReadResult.ok dfEmptyRows

/-- Modification-time key used to instantiate the sorting theorem. -/
def mtimeFixture : String → Int := fun s => if s = "a" then 1 else 2

/-- Decoder fixture: every path decodes to the same two-column table. -/
def decodeOkFixture : String → Except String DF := fun _ => Except.ok dfTwoCols

/-! ## Theorems -/

@[simp] theorem chNames_length (k : Nat) : (chNames k).length = k := by
  simp [chNames]

theorem toDigitsCore_eq_digitsRec :
    ∀ (fuel n : Nat) (ds : List Char), n < fuel →
      Nat.toDigitsCore 10 fuel n ds = digitsRec n ++ ds := by
  intro fuel
  induction fuel with
  | zero => intro n ds h; omega
  | succ f ih =>
    intro n ds h
    rw [Nat.toDigitsCore]
    by_cases h10 : n < 10
    · have hz : n / 10 = 0 := Nat.div_eq_of_lt h10
      rw [digitsRec]
      simp [hz, Nat.mod_eq_of_lt h10, dif_pos h10]
    · have hz : n / 10 ≠ 0 := by omega
      have hlt : n / 10 < f := by
        have h1 : n / 10 < n := Nat.div_lt_self (by omega) (by omega)
        omega
      have hrec : digitsRec n = digitsRec (n / 10) ++ [Nat.digitChar (n % 10)] := by
        rw [digitsRec, dif_neg h10]
      rw [if_neg hz, ih (n / 10) _ hlt, hrec]
      simp

theorem natRepr_eq_digitsRec (n : Nat) : Nat.repr n = (digitsRec n).asString := by
  show (Nat.toDigits 10 n).asString = (digitsRec n).asString
  rw [Nat.toDigits, toDigitsCore_eq_digitsRec (n + 1) n [] (Nat.lt_succ_self n)]
  simp

theorem digitVal_digitChar (d : Nat) (h : d < 10) :
    digitVal (Nat.digitChar d) = d := by
  interval_cases d <;> rfl

theorem foldl_digitsRec (n : Nat) :
    ∀ a : Nat,
      (digitsRec n).foldl (fun acc c => 10 * acc + digitVal c) a =
        a * 10 ^ (digitsRec n).length + n := by
  induction n using Nat.strong_induction_on with
  | _ n ih =>
    intro a
    by_cases h10 : n < 10
    · rw [digitsRec, dif_pos h10]
      simp [List.foldl, digitVal_digitChar n h10]
      omega
    · have hpos : 0 < n := by omega
      have hlt : n / 10 < n := Nat.div_lt_self hpos (by omega)
      have hrec : digitsRec n = digitsRec (n / 10) ++ [Nat.digitChar (n % 10)] := by
        rw [digitsRec, dif_neg h10]
      rw [hrec, List.foldl_append, List.length_append]
      simp only [List.foldl_cons, List.foldl_nil, List.length_cons,
        List.length_nil, Nat.zero_add]
      rw [ih (n / 10) hlt a, digitVal_digitChar (n % 10) (Nat.mod_lt n (by omega)),
        pow_succ, ← mul_assoc]
      generalize a * 10 ^ (digitsRec (n / 10)).length = Y
      omega

theorem strVal_digitsRec (n : Nat) :
    (digitsRec n).foldl (fun acc c => 10 * acc + digitVal c) 0 = n := by
  have := foldl_digitsRec n 0
  simpa using this

theorem digitsRec_injective : Function.Injective digitsRec := by
  intro a b h
  have ha := strVal_digitsRec a
  have hb := strVal_digitsRec b
  rw [h] at ha
  exact ha.symm.trans hb

theorem natRepr_injective : Function.Injective Nat.repr := by
  intro a b h
  rw [natRepr_eq_digitsRec, natRepr_eq_digitsRec] at h
  have hd : digitsRec a = digitsRec b := by
    have := congrArg String.data h
    simpa [List.asString] using this
  exact digitsRec_injective hd

theorem chName_injective : Function.Injective chName := by
  intro a b h
  have hd := congrArg String.data h
  simp only [chName] at hd
  rw [String.data_append, String.data_append] at hd
  have hr : (toString a).data = (toString b).data := List.append_cancel_left hd
  exact natRepr_injective (String.ext hr)

theorem chName_mem_chNames {j a : Nat} : chName j ∈ chNames a ↔ j < a := by
  constructor
  · intro h
    obtain ⟨i, hi, he⟩ := List.mem_map.mp h
    rw [← chName_injective he]
    exact List.mem_range.mp hi
  · intro h
    exact List.mem_map.mpr ⟨j, List.mem_range.mpr h, rfl⟩

theorem cellAt_chNames_range' :
    ∀ (m s : Nat) (row : List Cell) (j : Nat),
      cellAt ((List.range' s m).map chName) row (chName j) =
        if s ≤ j ∧ j < s + m then row.getD (j - s) none else none := by
  intro m
  induction m with
  | zero =>
    intro s row j
    have h0 : List.range' s 0 = [] := rfl
    have hc : ¬(s ≤ j ∧ j < s + 0) := by omega
    rw [h0, if_neg hc]
    rfl
  | succ m ih =>
    intro s row j
    rw [List.range'_succ]
    cases row with
    | nil =>
      show (none : Cell) = _
      by_cases hj : s ≤ j ∧ j < s + (m + 1)
      · rw [if_pos hj]
        cases j - s <;> rfl
      · rw [if_neg hj]
    | cons v vs =>
      simp only [List.map_cons, cellAt]
      split
      · rename_i h
        have hsj : s = j := chName_injective h
        subst hsj
        rw [if_pos (by omega)]
        simp
      · rename_i h
        have hne : s ≠ j := fun he => h (congrArg chName he)
        rw [ih (s + 1) vs j]
        by_cases hj : s ≤ j ∧ j < s + (m + 1)
        · rw [if_pos (by omega), if_pos hj]
          have hs : j - s = (j - (s + 1)) + 1 := by omega
          rw [hs]
          simp
        · rw [if_neg (by omega), if_neg hj]

theorem cellAt_chNames (k : Nat) (row : List Cell) (j : Nat) :
    cellAt (chNames k) row (chName j) =
      if j < k then row.getD j none else none := by
  have h := cellAt_chNames_range' k 0 row j
  rw [← List.range_eq_range'] at h
  simp only [chNames]
  simpa using h

theorem survivingDfs_eq_map (read_csv : String → ReadResult) (files : List String) :
    survivingDfs read_csv files = (contributingDfs read_csv files).map standardizeColumns := by
  induction files with
  | nil => rfl
  | cons f rest ih =>
    simp only [survivingDfs, contributingDfs, List.filterMap_cons] at ih ⊢
    cases h : read_csv f with
    | ok df =>
      by_cases he : df.empty
      · simp [he, ih]
      · simp [he, ih]
    | emptyData => simpa using ih
    | err m => simpa using ih

theorem mem_contributingDfs {read_csv : String → ReadResult} {files : List String} {c : DF}
    (h : c ∈ contributingDfs read_csv files) :
    ∃ f ∈ files, read_csv f = ReadResult.ok c ∧ c.empty = false := by
  simp only [contributingDfs] at h
  obtain ⟨f, hf, he⟩ := List.mem_filterMap.mp h
  refine ⟨f, hf, ?_⟩
  cases hr : read_csv f with
  | ok df =>
    rw [hr] at he
    by_cases hemp : df.empty
    · simp [hemp] at he
    · simp [hemp] at he
      subst he
      exact ⟨rfl, by simpa using hemp⟩
  | emptyData => rw [hr] at he; simp at he
  | err m => rw [hr] at he; simp at he

theorem unionStep (a b : Nat) :
    chNames a ++ (chNames b).filter (fun c => decide (c ∉ chNames a)) =
      chNames (max a b) := by
  by_cases hab : b ≤ a
  · have hfil : (chNames b).filter (fun c => decide (c ∉ chNames a)) = [] := by
      rw [List.filter_eq_nil_iff]
      intro c hc
      simp only [chNames] at hc
      obtain ⟨j, hj, hje⟩ := List.mem_map.mp hc
      subst hje
      have : chName j ∈ chNames a :=
        chName_mem_chNames.mpr (lt_of_lt_of_le (List.mem_range.mp hj) hab)
      simp [this]
    rw [hfil, List.append_nil, Nat.max_eq_left hab]
  · have hab' : a ≤ b := by omega
    have hsplit : List.range b = List.range' 0 a ++ List.range' a (b - a) := by
      rw [List.range_eq_range', show b = (b - a) + a by omega, ← List.range'_append_1]
      simp
    have hmap : chNames b = chNames a ++ (List.range' a (b - a)).map chName := by
      rw [chNames, hsplit, List.map_append, chNames, List.range_eq_range']
    rw [hmap, List.filter_append]
    have h1 : (chNames a).filter (fun c => decide (c ∉ chNames a)) = [] := by
      rw [List.filter_eq_nil_iff]
      intro c hc
      simp [hc]
    have h2 : ((List.range' a (b - a)).map chName).filter
        (fun c => decide (c ∉ chNames a)) = (List.range' a (b - a)).map chName := by
      rw [List.filter_eq_self]
      intro c hc
      obtain ⟨j, hj, hje⟩ := List.mem_map.mp hc
      subst hje
      have hja : ¬ j < a := by
        have := List.mem_range'_1.mp hj
        omega
      have : chName j ∉ chNames a := fun hmem => hja (chName_mem_chNames.mp hmem)
      simp [this]
    rw [h1, h2, List.nil_append, ← hmap, Nat.max_eq_right hab']

theorem unionCols_chNames_aux :
    ∀ (dfs : List DF) (a : Nat),
      (∀ df ∈ dfs, df.cols = chNames df.cols.length) →
      List.foldl (fun acc df => acc ++ df.cols.filter (fun c => decide (c ∉ acc)))
          (chNames a) dfs =
        chNames ((dfs.map (fun df => df.cols.length)).foldl max a) := by
  intro dfs
  induction dfs with
  | nil => intro a _; rfl
  | cons d rest ih =>
    intro a hall
    have hd : d.cols = chNames d.cols.length := hall d (by simp)
    simp only [List.foldl_cons, List.map_cons]
    rw [hd, chNames_length] at *
    rw [unionStep a d.cols.length]
    exact ih (max a d.cols.length) (fun df hdf => hall df (by simp [hdf]))

theorem unionCols_chNames (dfs : List DF)
    (h : ∀ df ∈ dfs, df.cols = chNames df.cols.length) :
    unionCols dfs = chNames (maxColumnCount dfs) := by
  have := unionCols_chNames_aux dfs 0 h
  simpa [unionCols, maxColumnCount, chNames] using this

theorem le_foldl_max : ∀ (l : List Nat) (a x : Nat), x ∈ l → x ≤ l.foldl max a := by
  intro l
  induction l with
  | nil => intro a x h; simp at h
  | cons y rest ih =>
    intro a x h
    rcases List.mem_cons.mp h with h | h
    · subst h
      have hbase : ∀ (m : List Nat) (b c : Nat), b ≤ c → b ≤ m.foldl max c := by
        intro m
        induction m with
        | nil => intro b c hbc; simpa using hbc
        | cons z zs ihz =>
          intro b c hbc
          exact ihz b (max c z) (le_trans hbc (Nat.le_max_left c z))
      exact hbase rest x (max a x) (Nat.le_max_right a x)
    · exact ih (max a y) x h

theorem width_le_maxColumnCount {dfs : List DF} {d : DF} (h : d ∈ dfs) :
    d.cols.length ≤ maxColumnCount dfs :=
  le_foldl_max _ 0 _ (List.mem_map.mpr ⟨d, h, rfl⟩)

theorem map_getD_range :
    ∀ (r : List Cell) (W : Nat), r.length ≤ W →
      (List.range W).map (fun j => r.getD j none) =
        r ++ List.replicate (W - r.length) none := by
  intro r
  induction r with
  | nil =>
    intro W h
    clear h
    simp only [List.length_nil, Nat.sub_zero, List.nil_append]
    induction W with
    | zero => rfl
    | succ W ihw =>
      rw [List.range_succ, List.map_append, ihw, List.replicate_succ']
      simp
  | cons v vs ih =>
    intro W hW
    cases W with
    | zero => simp at hW
    | succ W' =>
      rw [List.range_succ_eq_map, List.map_cons, List.map_map]
      have hcomp : ((fun j => (v :: vs).getD j none) ∘ Nat.succ) =
          fun j => vs.getD j none := by
        funext j
        simp
      rw [hcomp, ih W' (by simpa using hW)]
      simp [Nat.succ_sub_succ]

theorem mapCellAt_pad (k W : Nat) (r : List Cell) (hr : r.length = k) (hkW : k ≤ W) :
    (chNames W).map (cellAt (chNames k) r) =
      r ++ List.replicate (W - k) none := by
  subst hr
  show List.map (cellAt (chNames r.length) r) ((List.range W).map chName) =
    r ++ List.replicate (W - r.length) none
  rw [List.map_map]
  have hcomp : (cellAt (chNames r.length) r ∘ chName) = fun j => r.getD j none := by
    funext j
    simp only [Function.comp]
    rw [cellAt_chNames]
    by_cases hj : j < r.length
    · rw [if_pos hj]
    · rw [if_neg hj]
      exact (List.getD_eq_default r none (by omega)).symm
  rw [hcomp]
  exact map_getD_range r W hkW

theorem flatMap_std_body (W : Nat) :
    ∀ (cs : List DF),
      (∀ c ∈ cs, (∀ r ∈ c.rows, r.length = c.cols.length) ∧ c.cols.length ≤ W) →
      (cs.map standardizeColumns).flatMap
          (fun d => d.rows.map (fun r => (chNames W).map (cellAt d.cols r))) =
        cs.flatMap (fun c => c.rows.map
          (fun r => r ++ List.replicate (W - c.cols.length) (none : Cell))) := by
  intro cs
  induction cs with
  | nil => intro _; rfl
  | cons c rest ih =>
    intro h
    have hc := h c (by simp)
    have hrest : ∀ d ∈ rest, (∀ r ∈ d.rows, r.length = d.cols.length) ∧
        d.cols.length ≤ W := fun d hd => h d (by simp [hd])
    simp only [List.map_cons, List.flatMap_cons]
    rw [ih hrest]
    congr 1
    simp only [standardizeColumns]
    exact List.map_congr_left fun r hr =>
      mapCellAt_pad c.cols.length W r (hc.1 r hr) hc.2

theorem flatMap_rows_length (cs : List DF) (f : DF → List Cell → List Cell) :
    (cs.flatMap (fun c => c.rows.map (f c))).length =
      (cs.map (fun c => c.rows.length)).sum := by
  induction cs with
  | nil => rfl
  | cons c rest ih => simp [List.flatMap_cons, ih]

theorem maxColumnCount_std (cs : List DF) :
    maxColumnCount (cs.map standardizeColumns) = maxColumnCount cs := by
  have hfun : ((fun df : DF => df.cols.length) ∘ standardizeColumns) =
      fun df : DF => df.cols.length := by
    funext df
    simp [standardizeColumns]
  simp [maxColumnCount, List.map_map, hfun]

theorem std_cols_self (cs : List DF) :
    ∀ df ∈ cs.map standardizeColumns, df.cols = chNames df.cols.length := by
  intro df hdf
  obtain ⟨c, _, he⟩ := List.mem_map.mp hdf
  subst he
  simp [standardizeColumns]

theorem unionCols_single (d : DF) : unionCols [d] = d.cols := by
  simp [unionCols]

@[simp] theorem concatIgnoreIndex_cols (dfs : List DF) :
    (concatIgnoreIndex dfs).cols = unionCols dfs := rfl

theorem concatIgnoreIndex_rows (dfs : List DF) :
    (concatIgnoreIndex dfs).rows =
      dfs.flatMap (fun df => df.rows.map (fun r => (unionCols dfs).map (cellAt df.cols r))) := rfl

theorem concatIgnoreIndex_idx (dfs : List DF) :
    (concatIgnoreIndex dfs).idx = List.range (concatIgnoreIndex dfs).rows.length := rfl

theorem merge_returns_some (read_csv : String → ReadResult) (files : List String)
    (output_folder timestamp : String) (hne : contributingDfs read_csv files ≠ []) :
    merge_csv_files read_csv files output_folder timestamp =
      some (pathJoin output_folder ("merge_csv_" ++ timestamp ++ ".csv"),
        concatIgnoreIndex (survivingDfs read_csv files)) := by
  have hml : (survivingDfs read_csv files).isEmpty = false := by
    rw [survivingDfs_eq_map]
    cases hc : contributingDfs read_csv files with
    | nil => exact absurd hc hne
    | cons a l => rfl
  simp [merge_csv_files, hml]

theorem unionCols_surviving (read_csv : String → ReadResult) (files : List String) :
    unionCols (survivingDfs read_csv files) =
      chNames (maxColumnCount (contributingDfs read_csv files)) := by
  rw [survivingDfs_eq_map, unionCols_chNames _ (std_cols_self _), maxColumnCount_std]

/-- C2 counterexample: merging a 2-column file followed by a 3-column file
produces a merged table with 3 columns (`pd.concat` takes the union of the
renamed column labels), not the 2 columns of the first non-empty contributing
file, so the claimed invariant fails as stated. -/
theorem merge_width_not_first_counterexample :
    Option.map (fun p => p.2.cols.length)
        (merge_csv_files readCsvTwoWidths ["f1", "f2"] "o" "t") = some 3 ∧
    Option.map (fun c => c.cols.length)
        (contributingDfs readCsvTwoWidths ["f1", "f2"]).head? = some 2 ∧
    (3 : Nat) ≠ 2 := by
  decide

/-- C2 (amended): for every merge run with at least one surviving input
table, the merged output's column count equals the maximum column count among
the surviving tables (the union of the positional renamings), which equals
the first survivor's column count only when no later survivor is wider. -/
theorem merge_output_width_eq_max (read_csv : String → ReadResult)
    (files : List String) (output_folder timestamp : String)
    (hne : contributingDfs read_csv files ≠ []) :
    ∃ m : DF,
      merge_csv_files read_csv files output_folder timestamp =
        some (pathJoin output_folder ("merge_csv_" ++ timestamp ++ ".csv"), m) ∧
      m.cols.length = maxColumnCount (contributingDfs read_csv files) := by
  refine ⟨_, merge_returns_some _ _ _ _ hne, ?_⟩
  rw [concatIgnoreIndex_cols, unionCols_surviving, chNames_length]

/-- Witness for C2 (amended) at the two-widths fixture. -/
theorem merge_output_width_eq_max_witness :
    ∃ m : DF,
      merge_csv_files readCsvTwoWidths ["f1", "f2"] "o" "t" =
        some (pathJoin "o" ("merge_csv_" ++ "t" ++ ".csv"), m) ∧
      m.cols.length = maxColumnCount (contributingDfs readCsvTwoWidths ["f1", "f2"]) :=
  merge_output_width_eq_max readCsvTwoWidths ["f1", "f2"] "o" "t" (by decide)

/-- C3: merging a singleton list containing one non-empty table with `k`
columns yields an output with exactly `k` columns named `CH0 .. CH(k-1)`,
whatever the original column names were. -/
theorem merge_single_standardizes_columns (read_csv : String → ReadResult)
    (file : String) (df : DF) (output_folder timestamp : String)
    (hread : read_csv file = ReadResult.ok df) (hne : df.empty = false) :
    ∃ m : DF,
      merge_csv_files read_csv [file] output_folder timestamp =
        some (pathJoin output_folder ("merge_csv_" ++ timestamp ++ ".csv"), m) ∧
      m.cols = (List.range df.cols.length).map chName ∧
      m.cols.length = df.cols.length := by
  have hcontrib : contributingDfs read_csv [file] = [df] := by
    simp [contributingDfs, List.filterMap_cons, hread, hne]
  have hsurv : survivingDfs read_csv [file] = [standardizeColumns df] := by
    rw [survivingDfs_eq_map, hcontrib]
    rfl
  refine ⟨_, merge_returns_some _ _ _ _ (by simp [hcontrib]), ?_, ?_⟩
  · rw [concatIgnoreIndex_cols, hsurv, unionCols_single]
    simp [standardizeColumns, chNames]
  · rw [concatIgnoreIndex_cols, hsurv, unionCols_single]
    simp [standardizeColumns]

/-- Witness for C3 at a 2-column table with original names `a`, `b`. -/
theorem merge_single_standardizes_columns_witness :
    ∃ m : DF,
      merge_csv_files readCsvSingle ["v"] "o" "t" =
        some (pathJoin "o" ("merge_csv_" ++ "t" ++ ".csv"), m) ∧
      m.cols = (List.range dfTwoCols.cols.length).map chName ∧
      m.cols.length = dfTwoCols.cols.length :=
  merge_single_standardizes_columns readCsvSingle "v" dfTwoCols "o" "t" (by decide) (by decide)

/-- C4: for well-formed surviving tables, the merged output appends the
tables' rows in input order, preserving each table's internal row order (each
row only padded on the right with missing cells up to the union width),
has total row count equal to the sum of the survivors' row counts, and
carries a fresh contiguous row index. -/
theorem merge_concat_structure (read_csv : String → ReadResult) (files : List String)
    (output_folder timestamp : String)
    (hwf : ∀ f ∈ files, ∀ df, read_csv f = ReadResult.ok df →
      ∀ r ∈ df.rows, r.length = df.cols.length)
    (hne : contributingDfs read_csv files ≠ []) :
    ∃ m : DF,
      merge_csv_files read_csv files output_folder timestamp =
        some (pathJoin output_folder ("merge_csv_" ++ timestamp ++ ".csv"), m) ∧
      m.rows = (contributingDfs read_csv files).flatMap
        (fun c => c.rows.map (fun r =>
          r ++ List.replicate
            (maxColumnCount (contributingDfs read_csv files) - c.cols.length)
            (none : Cell))) ∧
      m.rows.length = ((contributingDfs read_csv files).map (fun c => c.rows.length)).sum ∧
      m.idx = List.range m.rows.length := by
  have hrows : (concatIgnoreIndex (survivingDfs read_csv files)).rows =
      (contributingDfs read_csv files).flatMap
        (fun c => c.rows.map (fun r =>
          r ++ List.replicate
            (maxColumnCount (contributingDfs read_csv files) - c.cols.length)
            (none : Cell))) := by
    rw [concatIgnoreIndex_rows, unionCols_surviving, survivingDfs_eq_map]
    apply flatMap_std_body
    intro c hc
    obtain ⟨f, hf, hok, _⟩ := mem_contributingDfs hc
    exact ⟨hwf f hf c hok, le_foldl_max _ 0 _ (List.mem_map.mpr ⟨c, hc, rfl⟩)⟩
  refine ⟨_, merge_returns_some _ _ _ _ hne, hrows, ?_, concatIgnoreIndex_idx _⟩
  rw [hrows]
  exact flatMap_rows_length _ _

/-- Witness for C4 at the two-widths fixture. -/
theorem merge_concat_structure_witness :
    ∃ m : DF,
      merge_csv_files readCsvTwoWidths ["f1", "f2"] "o" "t" =
        some (pathJoin "o" ("merge_csv_" ++ "t" ++ ".csv"), m) ∧
      m.rows = (contributingDfs readCsvTwoWidths ["f1", "f2"]).flatMap
        (fun c => c.rows.map (fun r =>
          r ++ List.replicate
            (maxColumnCount (contributingDfs readCsvTwoWidths ["f1", "f2"]) - c.cols.length)
            (none : Cell))) ∧
      m.rows.length =
        ((contributingDfs readCsvTwoWidths ["f1", "f2"]).map (fun c => c.rows.length)).sum ∧
      m.idx = List.range m.rows.length := by
  apply merge_concat_structure
  · intro f hf df hdf
    have hfe : f = "f1" ∨ f = "f2" := by simpa using hf
    rcases hfe with h | h <;> subst h <;> simp [readCsvTwoWidths] at hdf <;>
      subst hdf <;> decide
  · decide

/-- C5: an empty table at the head of the merge input is transparent: the
merge result is identical to merging the remaining files, and the read loop
prints the skip notice for it. -/
theorem merge_empty_transparent (read_csv : String → ReadResult) (empty_file : String)
    (rest : List String) (output_folder timestamp : String) (edf : DF)
    (hread : read_csv empty_file = ReadResult.ok edf) (he : edf.empty = true) :
    merge_csv_files read_csv (empty_file :: rest) output_folder timestamp =
      merge_csv_files read_csv rest output_folder timestamp ∧
    mergeLogs read_csv (empty_file :: rest) =
      ("Skipping empty file: " ++ empty_file) :: mergeLogs read_csv rest := by
  constructor
  · have hs : survivingDfs read_csv (empty_file :: rest) = survivingDfs read_csv rest := by
      simp [survivingDfs, List.filterMap_cons, hread, he]
    simp [merge_csv_files, hs]
  · simp [mergeLogs, hread, he]

/-- Witness for C5: an empty file prepended to a valid one. -/
theorem merge_empty_transparent_witness :
    merge_csv_files readCsvWithEmpty ["e", "v"] "o" "t" =
      merge_csv_files readCsvWithEmpty ["v"] "o" "t" ∧
    mergeLogs readCsvWithEmpty ["e", "v"] =
      ("Skipping empty file: " ++ "e") :: mergeLogs readCsvWithEmpty ["v"] :=
  merge_empty_transparent readCsvWithEmpty "e" ["v"] "o" "t" dfEmptyRows (by decide) (by decide)

/-- C6: when no input table survives filtering (here: all readable inputs are
empty), merge returns `None` — nothing is written and no error is raised. -/
theorem merge_no_survivors_returns_none (read_csv : String → ReadResult)
    (files : List String) (output_folder timestamp : String)
    (h : ∀ f ∈ files, ∀ df, read_csv f = ReadResult.ok df → df.empty = true) :
    merge_csv_files read_csv files output_folder timestamp = none := by
  have hs : survivingDfs read_csv files = [] := by
    simp only [survivingDfs]
    rw [List.filterMap_eq_nil_iff]
    intro f hf
    cases hr : read_csv f with
    | ok df => simp [h f hf df hr]
    | emptyData => rfl
    | err m => rfl
  simp [merge_csv_files, hs]

/-- Witness for C6: two empty inputs produce no merge output. -/
theorem merge_no_survivors_returns_none_witness :
    merge_csv_files readCsvAllEmpty ["a", "b"] "o" "t" = none := by
  apply merge_no_survivors_returns_none
  intro f _ df hdf
  simp only [readCsvAllEmpty] at hdf
  cases hdf
  decide

/-- C7: for an algorithm selector outside the five supported routines, the
dispatcher performs no file write: for every channel in the request it
produces exactly the not-implemented notice, and no PNG-write effect occurs;
the run is a no-op, not an error. -/
theorem perform_transformation_unsupported (read_csv : String → ReadResult)
    (merge_csv_path : String) (channels : List String) (algorithm : Int)
    (h : algorithm < 1 ∨ 5 < algorithm) :
    perform_transformation read_csv merge_csv_path channels algorithm =
      Except.ok (channels.map (fun channel =>
        Effect.info ("Algorithm " ++ toString algorithm ++
          " not implemented for " ++ channel ++ "."))) ∧
    ∀ p, Effect.writePng p ∉ channels.map (fun channel =>
        Effect.info ("Algorithm " ++ toString algorithm ++
          " not implemented for " ++ channel ++ ".")) := by
  have h1 : ¬(algorithm = 1) := by omega
  have h2 : ¬(algorithm = 2) := by omega
  have h3 : ¬(algorithm = 3) := by omega
  have h4 : ¬(algorithm = 4) := by omega
  have h5 : ¬(algorithm = 5) := by omega
  constructor
  · induction channels with
    | nil => rfl
    | cons ch rest ih =>
      simp only [perform_transformation, h1, h2, h3, h4, h5, if_false, ih,
        List.map_cons]
      rfl
  · intro p hp
    obtain ⟨ch, _, he⟩ := List.mem_map.mp hp
    exact absurd he (by simp)

/-- Witness for C7 at algorithm 6 with two requested channels. -/
theorem perform_transformation_unsupported_witness :
    perform_transformation readCsvSingle "m.csv" ["CH0", "CH1"] 6 =
      Except.ok (["CH0", "CH1"].map (fun channel =>
        Effect.info ("Algorithm " ++ toString (6 : Int) ++
          " not implemented for " ++ channel ++ "."))) ∧
    ∀ p, Effect.writePng p ∉ ["CH0", "CH1"].map (fun channel =>
        Effect.info ("Algorithm " ++ toString (6 : Int) ++
          " not implemented for " ++ channel ++ ".")) :=
  perform_transformation_unsupported readCsvSingle "m.csv" ["CH0", "CH1"] 6 (by omega)

/-- C8: in directory mode with merge requested and a non-empty collection of
converted CSV paths, the list handed to `merge_csv_files` is the re-sort of
the collected paths by modification time, ascending: it is a permutation of
the collected list (so independent of completion order) and pairwise
ascending in the mtime key. -/
theorem process_folder_merge_input_sorted (read_csv : String → ReadResult)
    (mtime : String → Int) (compl : List (Except String String))
    (channels : Option (List String)) (algorithm : Option Int)
    (output_folder timestamp : String) (csv_files : List String)
    (hc : collectCsvFiles compl = Except.ok csv_files) (hne : csv_files ≠ []) :
    process_folder read_csv mtime compl true false channels algorithm
        output_folder timestamp =
      Except.ok (merge_csv_files read_csv (sortByMtime mtime csv_files)
        output_folder timestamp, []) ∧
    List.Perm (sortByMtime mtime csv_files) csv_files ∧
    (sortByMtime mtime csv_files).Pairwise (fun a b => mtime a ≤ mtime b) := by
  refine ⟨?_, ?_, ?_⟩
  · have hemp : csv_files.isEmpty = false := by
      cases csv_files with
      | nil => exact absurd rfl hne
      | cons a l => rfl
    simp [process_folder, hc, hemp, transformStage]
  · exact List.perm_insertionSort _ _
  · haveI : IsTotal String (fun a b => mtime a ≤ mtime b) :=
      ⟨fun a b => Int.le_total (mtime a) (mtime b)⟩
    haveI : IsTrans String (fun a b => mtime a ≤ mtime b) :=
      ⟨fun a b c hab hbc => le_trans hab hbc⟩
    exact List.sorted_insertionSort _ _

/-- Witness for C8: completion order `["b", "a"]` is re-sorted to `["a", "b"]`
by the mtime key before merging. -/
theorem process_folder_merge_input_sorted_witness :
    process_folder readCsvSingle mtimeFixture [Except.ok "b", Except.ok "a"]
        true false none none "o" "t" =
      Except.ok (merge_csv_files readCsvSingle
        (sortByMtime mtimeFixture ["b", "a"]) "o" "t", []) ∧
    List.Perm (sortByMtime mtimeFixture ["b", "a"]) ["b", "a"] ∧
    (sortByMtime mtimeFixture ["b", "a"]).Pairwise
      (fun a b => mtimeFixture a ≤ mtimeFixture b) :=
  process_folder_merge_input_sorted readCsvSingle mtimeFixture
    [Except.ok "b", Except.ok "a"] none none "o" "t" ["b", "a"] rfl (by decide)

/-- C10: with the transform flag set but a falsy channel list (empty or
absent) or a falsy algorithm selector (zero or absent), both the directory
transform stage and the single-file transform step complete with no effects
at all — no file write, no error, and no log line. -/
theorem transform_stage_skipped_silently (read_csv : String → ReadResult)
    (should_merge : Bool) (channels : Option (List String)) (algorithm : Option Int)
    (merged_csv_path : Option String) (csv_files : List String) (csv_path : String)
    (h : truthyList channels = false ∨ truthyInt algorithm = false) :
    transformStage read_csv true should_merge channels algorithm merged_csv_path
        csv_files = Except.ok [] ∧
    main_transform_step read_csv csv_path true channels algorithm = Except.ok [] := by
  rcases h with h | h <;> simp [transformStage, main_transform_step, h]

/-- Witness for C10: transform requested with an empty channel list and a
valid algorithm selector does nothing, silently. -/
theorem transform_stage_skipped_silently_witness :
    transformStage readCsvSingle true true (some []) (some 2) none [] =
      Except.ok [] ∧
    main_transform_step readCsvSingle "c.csv" true (some []) (some 2) = Except.ok [] :=
  transform_stage_skipped_silently readCsvSingle true (some []) (some 2) none []
    "c.csv" (Or.inl (by decide))

theorem pathJoin_ne_empty (a b : String) : pathJoin a b ≠ "" := by
  intro h
  have hslash : ("/" : String).data = ['/'] := rfl
  have hnil : ("" : String).data = [] := rfl
  have hd := congrArg String.data h
  rw [pathJoin, String.data_append, String.data_append, hslash, hnil] at hd
  simp at hd

theorem convert_ok_path (decode : String → Except String DF)
    (tdms_path output_folder p : String) (out : CsvOut)
    (h : convert_tdms_to_csv decode tdms_path output_folder = Except.ok (p, out)) :
    p = pathJoin output_folder
      (pyReplace (sanitize_filename (pyBasename tdms_path)) ".tdms" ".csv") := by
  simp only [convert_tdms_to_csv] at h
  cases hd : decode tdms_path with
  | error e => rw [hd] at h; exact absurd h (by simp)
  | ok df =>
    rw [hd] at h
    simp only [Except.ok.injEq, Prod.mk.injEq] at h
    exact h.1.symm

theorem collectCsvFiles_all_ok :
    ∀ compl : List (Except String String),
      (∀ r ∈ compl, ∃ p, r = Except.ok p ∧ p ≠ "") →
      ∃ ps, collectCsvFiles compl = Except.ok ps ∧ ps.length = compl.length := by
  intro compl
  induction compl with
  | nil => intro _; exact ⟨[], rfl, rfl⟩
  | cons r rest ih =>
    intro h
    obtain ⟨p, hp, hpne⟩ := h r (by simp)
    subst hp
    obtain ⟨ps, hps, hlen⟩ := ih (fun r hr => h r (by simp [hr]))
    refine ⟨p :: ps, ?_, by simp [hlen]⟩
    simp [collectCsvFiles, hps, hpne]

theorem collectCsvFiles_error (compl : List (Except String String)) (e : String)
    (hmem : Except.error e ∈ compl) :
    ∀ ps, collectCsvFiles compl ≠ Except.ok ps := by
  induction compl with
  | nil => simp at hmem
  | cons r rest ih =>
    cases r with
    | error e' =>
      intro ps h
      exact Except.noConfusion h
    | ok p =>
      have hmem' : Except.error e ∈ rest := by simpa using hmem
      intro ps h
      simp only [collectCsvFiles] at h
      cases hc : collectCsvFiles rest with
      | error e'' => rw [hc] at h; exact Except.noConfusion h
      | ok ps' => exact ih hmem' ps' hc

/-- C1 counterexample: with one discovered capture file whose decode raises,
the collection loop re-raises the exception (`future.result()` is unguarded)
instead of returning the empty path list the claim demands; the failure is
neither caught nor excluded. -/
theorem batch_failure_not_isolated_counterexample :
    discovered_tdms ["b.tdms"] = ["b.tdms"] ∧
    taskResults (fun _ => Except.error "decode error") "in" "out" ["b.tdms"] =
      [Except.error "decode error"] ∧
    collectCsvFiles (taskResults (fun _ => Except.error "decode error") "in" "out"
      ["b.tdms"]) = Except.error "decode error" :=
  ⟨rfl, rfl, rfl⟩

/-- C1 (amended): batch conversion does not isolate per-file failures.  Over
every completion-order permutation of the submitted tasks' outcomes: when
every conversion succeeded, the collection loop returns one CSV path per
discovered capture file; but as soon as any task raised, the loop re-raises
that exception and returns no list at all (so the claimed `N - failures`
result size only holds in the zero-failure case). -/
theorem batch_collect_amended (decode : String → Except String DF)
    (folder_path output_folder : String) (listing : List String)
    (compl : List (Except String String))
    (hperm : List.Perm compl (taskResults decode folder_path output_folder listing)) :
    ((∀ r ∈ compl, ∃ p, r = Except.ok p) →
      ∃ ps, collectCsvFiles compl = Except.ok ps ∧
        ps.length = (discovered_tdms listing).length) ∧
    (∀ e, Except.error e ∈ compl →
      ∀ ps, collectCsvFiles compl ≠ Except.ok ps) := by
  constructor
  · intro hall
    have hall' : ∀ r ∈ compl, ∃ p, r = Except.ok p ∧ p ≠ "" := by
      intro r hr
      obtain ⟨p, hp⟩ := hall r hr
      subst hp
      refine ⟨p, rfl, ?_⟩
      have hrt : Except.ok p ∈ taskResults decode folder_path output_folder listing :=
        hperm.subset hr
      obtain ⟨filename, _, he⟩ := List.mem_map.mp hrt
      cases hconv : convert_tdms_to_csv decode (pathJoin folder_path filename)
          output_folder with
      | error e => rw [hconv] at he; exact absurd he (by simp [Except.map])
      | ok pr =>
        rw [hconv] at he
        have hp1 : pr.1 = p := by simpa [Except.map] using he
        have hpath := convert_ok_path decode (pathJoin folder_path filename)
          output_folder pr.1 pr.2 hconv
        rw [← hp1, hpath]
        exact pathJoin_ne_empty _ _
    obtain ⟨ps, hps, hlen⟩ := collectCsvFiles_all_ok compl hall'
    refine ⟨ps, hps, ?_⟩
    rw [hlen, hperm.length_eq]
    simp [taskResults]
  · intro e hmem
    exact collectCsvFiles_error compl e hmem

/-- Witness for C1 (amended) at a one-file directory whose decode succeeds. -/
theorem batch_collect_amended_witness :
    ((∀ r ∈ taskResults decodeOkFixture "in" "out" ["a.tdms"], ∃ p, r = Except.ok p) →
      ∃ ps, collectCsvFiles (taskResults decodeOkFixture "in" "out" ["a.tdms"]) =
          Except.ok ps ∧
        ps.length = (discovered_tdms ["a.tdms"]).length) ∧
    (∀ e, Except.error e ∈ taskResults decodeOkFixture "in" "out" ["a.tdms"] →
      ∀ ps, collectCsvFiles (taskResults decodeOkFixture "in" "out" ["a.tdms"]) ≠
        Except.ok ps) :=
  batch_collect_amended decodeOkFixture "in" "out" ["a.tdms"] _ (List.Perm.refl _)

theorem replaceAllAux_nil (pat rep : List Char) (fuel : Nat) :
    replaceAllAux pat rep fuel [] = [] := by
  cases fuel <;> rfl

theorem replaceAllAux_suffix (pat rep : List Char) (hp : pat ≠ []) :
    ∀ (stem : List Char) (fuel : Nat), stem.length + pat.length ≤ fuel →
      (∀ i < stem.length, ¬(pat.isPrefixOf ((stem ++ pat).drop i) = true)) →
      replaceAllAux pat rep fuel (stem ++ pat) = stem ++ rep := by
  intro stem
  induction stem with
  | nil =>
    intro fuel hfuel _
    cases pat with
    | nil => exact absurd rfl hp
    | cons c cs =>
      cases fuel with
      | zero => simp at hfuel
      | succ f =>
        rw [List.nil_append, List.nil_append]
        simp only [replaceAllAux]
        have hpre : (c :: cs).isPrefixOf (c :: cs) = true := by simp
        rw [hpre]
        simp [List.drop_length, replaceAllAux_nil]
  | cons c stem' ih =>
    intro fuel hfuel hocc
    cases fuel with
    | zero => simp at hfuel
    | succ f =>
      have hnot : pat.isPrefixOf ((c :: stem') ++ pat) = false := by
        have h0 := hocc 0 (by simp)
        rw [List.drop_zero] at h0
        cases hb : pat.isPrefixOf ((c :: stem') ++ pat) with
        | false => rfl
        | true => exact absurd hb h0
      rw [List.cons_append] at hnot ⊢
      simp only [replaceAllAux, hnot, Bool.false_and, Bool.false_eq_true, if_false]
      rw [List.cons_append]
      congr 1
      apply ih f (by simp at hfuel ⊢; omega)
      intro i hi
      have := hocc (i + 1) (by simp; omega)
      simpa using this

/-- C9 counterexample: `A.TDMS` passes the case-insensitive acceptance test,
but `replace('.tdms', '.csv')` finds no lower-case occurrence, so the derived
output name keeps the capture extension instead of switching to the tabular
one. -/
theorem convert_uppercase_not_replaced_counterexample :
    lowerEndsWithTdms "A.TDMS" = true ∧
    (convert_tdms_to_csv decodeOkFixture "A.TDMS" "out").map Prod.fst =
      Except.ok "out/A.TDMS" ∧
    ("out/A.TDMS" : String) ≠ "out/A.csv" :=
  ⟨rfl, rfl, by decide⟩

/-- C9 (amended): when the sanitized base name ends in the lower-case capture
extension `.tdms` and contains that substring nowhere else, conversion writes
to the output directory under the base name with the extension replaced by
`.csv`, and the written table carries no synthetic index column (the header
is exactly the decoded column list and the body exactly the decoded rows).
Names accepted only case-insensitively (for example `.TDMS`) keep their
original extension, as the counterexample shows. -/
theorem convert_lowercase_extension (decode : String → Except String DF)
    (tdms_path output_folder : String) (df : DF) (stem : List Char)
    (hdec : decode tdms_path = Except.ok df)
    (hbase : (sanitize_filename (pyBasename tdms_path)).data = stem ++ ".tdms".data)
    (honce : ∀ i < stem.length,
      ¬(".tdms".data.isPrefixOf ((stem ++ ".tdms".data).drop i) = true)) :
    convert_tdms_to_csv decode tdms_path output_folder =
      Except.ok (pathJoin output_folder ((stem ++ ".csv".data).asString),
        { header := df.cols, body := df.rows }) := by
  have hrepl : pyReplace (sanitize_filename (pyBasename tdms_path)) ".tdms" ".csv" =
      (stem ++ ".csv".data).asString := by
    simp only [pyReplace, hbase]
    rw [replaceAllAux_suffix ".tdms".data ".csv".data (by decide) stem
      (stem ++ ".tdms".data).length (by simp) honce]
  simp only [convert_tdms_to_csv, hdec, hrepl]
  rfl

/-- Witness for C9 (amended): `in/my file.tdms` sanitizes to `myfile.tdms`
and converts to `out/myfile.csv` with no index column. -/
theorem convert_lowercase_extension_witness :
    convert_tdms_to_csv decodeOkFixture "in/my file.tdms" "out" =
      Except.ok (pathJoin "out" (("myfile".data ++ ".csv".data).asString),
        { header := dfTwoCols.cols, body := dfTwoCols.rows }) :=
  convert_lowercase_extension decodeOkFixture "in/my file.tdms" "out" dfTwoCols
    "myfile".data rfl rfl (by decide)

end TdmsToCsv
